import Mathlib

/-
Shallow embedding of src/src/datafinder/datafinder.py (class DataFinder).

Modelling conventions:
* A pathlib.Path is a flag (absolute?) plus its list of segments.
* The file system is an explicit environment: the set of paths for which
  is_dir() returns True, and the result of folder.rglob(pattern) as an
  oracle function (glob semantics are a platform primitive, out of scope).
* Python exceptions are modelled with Except; methods that mutate self are
  state transformers returning (new state, outcome), so that partial
  mutation before an exception is preserved, exactly as in Python.
* A compiled regular expression is modelled extensionally as a function
  from a string to Option groupdict: re.match(r, s) is None or a match
  object m whose m.groupdict() lists named groups in definition order with
  their captured text (None for non-participating groups).
* Python dicts are insertion-ordered association lists; d[k] = v replaces
  the value in place when k is present (keeping its position) and appends
  otherwise; dict comprehensions and dict.update follow from that.
* The pandas DataFrame is kept abstract as (columns, rows, index);
  pd.DataFrame() is the empty column-less frame, pd.DataFrame(rows) takes
  columns as the union of row keys in first-appearance order and index
  range(len(rows)); sort_values(by="filename") uses the library default
  kind='quicksort', whose documented contract is only that the result is
  a permutation of the rows that is non-decreasing in the key (stability
  is explicitly not guaranteed); it is therefore modelled as an arbitrary
  function satisfying SortsByFilename, passed as a parameter.
-/

deriving instance DecidableEq for Except

inductive PyErr where
  | valueError : String → PyErr
  | typeError : String → PyErr
  | zeroDivisionError : PyErr
deriving DecidableEq

/-- pathlib.Path: absolute flag plus path segments (the parts, without the
anchor). -/
structure PyPath where
  absolute : Bool
  segments : List String
deriving DecidableEq

/-- Path.name: the final path component, or the empty string. -/
def PyPath.name (p : PyPath) : String :=
  (p.segments.getLast?).getD ""

/-- Index of the last occurrence of a dot in a character list
(str.rfind applied to a dot). -/
def lastDotPos (cs : List Char) : Option Nat :=
  ((cs.enum.filter (fun ic => decide (ic.2 = Char.ofNat 46))).getLast?).map Prod.fst

/-- Path.suffix, following the CPython implementation: i = name.rfind(dot);
the suffix is name[i:] when 0 < i < len(name) - 1, else the empty string. -/
def PyPath.suffix (p : PyPath) : String :=
  let cs := p.name.toList
  match lastDotPos cs with
  | some i => if 0 < i ∧ i < cs.length - 1 then String.mk (cs.drop i) else ""
  | none => ""

/-- The / operator on paths: an absolute right operand replaces the left
one, otherwise the segments are concatenated. -/
def PyPath.join (a b : PyPath) : PyPath :=
  if b.absolute then b else { absolute := a.absolute, segments := a.segments ++ b.segments }

/-- Path.relative_to: succeeds when the base is a prefix of the path
(same anchor), returning the relative remainder; raises ValueError
otherwise. -/
def PyPath.relativeTo (p base : PyPath) : Except PyErr PyPath :=
  if p.absolute = base.absolute ∧ base.segments.isPrefixOf p.segments = true then
    .ok { absolute := false, segments := p.segments.drop base.segments.length }
  else
    .error (.valueError "path is not relative to the base path")

/-- The value stored in self.root. Because of the final unconditional
assignment in set_root, it can be a whole Python list, not only a path. -/
inductive RootVal where
  | path : PyPath → RootVal
  | pathList : List PyPath → RootVal
deriving DecidableEq

/-- The argument accepted by set_root: a single path-like value or a list
of candidates. -/
inductive RootArg where
  | single : PyPath → RootArg
  | list : List PyPath → RootArg
deriving DecidableEq

/-- The file-system environment: which paths are existing directories, and
what folder.rglob(pattern) enumerates (in iteration order). -/
structure FileSystem where
  dirs : List PyPath
  rglobSys : PyPath → String → List PyPath

/-- Path.is_dir() against the environment. -/
def FileSystem.isDir (fs : FileSystem) (p : PyPath) : Bool :=
  decide (p ∈ fs.dirs)

/-- The mutable state of a DataFinder object: self.root and self.folders. -/
structure DataFinder where
  root : RootVal
  folders : List PyPath
deriving DecidableEq

/-- DataFinder.set_root. In the list branch the source first assigns
self.root = valid_roots[0] and then falls through to the trailing
unconditional self.root = root, which overwrites it with the original
list; the net effect modelled here is that the whole candidate list is
stored. On failure the exception is raised before any assignment, so the
state is returned unchanged. -/
def set_root (fs : FileSystem) (st : DataFinder) (arg : RootArg) : DataFinder × Except PyErr Unit :=
  match arg with
  | .list rs =>
      let valid_roots := rs.filter fs.isDir
      match valid_roots with
      | [] => (st, .error (.valueError "None of the provided roots exist or are directories."))
      | _ :: _ => ({ st with root := .pathList rs }, .ok ())
  | .single r =>
      if fs.isDir r then ({ st with root := .path r }, .ok ())
      else (st, .error (.valueError "Root does not exist or is not a directory."))

/-- self.root / folder: raises TypeError when self.root holds a list. -/
def RootVal.joinUnder : RootVal → PyPath → Except PyErr PyPath
  | .path p, f => .ok (p.join f)
  | .pathList _, _ => .error (.typeError "unsupported operand types for the slash operator")

/-- The folder-resolution step of add_folders: an absolute path is used
as-is, a relative one is joined under the current root. -/
def resolveFolder (root : RootVal) (f : PyPath) : Except PyErr PyPath :=
  if f.absolute then .ok f else root.joinUnder f

/-- The main loop of DataFinder.add_folders over the supplied paths:
existing directories are appended to self.folders; a missing one raises
ValueError when strict (leaving earlier appends in place) and is skipped
with a printed warning otherwise. -/
def addFoldersLoop (fs : FileSystem) (strict : Bool) (st : DataFinder) : List PyPath → DataFinder × Except PyErr Unit
  | [] => (st, .ok ())
  | f :: rest =>
    match resolveFolder st.root f with
    | .error e => (st, .error e)
    | .ok folder =>
      if fs.isDir folder then
        addFoldersLoop fs strict { st with folders := st.folders ++ [folder] } rest
      else if strict then
        (st, .error (.valueError "Folder does not exist or is not a directory."))
      else
        addFoldersLoop fs strict st rest

/-- DataFinder.add_folders: optionally set the root first (its failure
aborts the call before any folder is touched), then run the loop. -/
def add_folders (fs : FileSystem) (st : DataFinder) (folders : List PyPath) (rootArg : Option RootArg) (strict : Bool) : DataFinder × Except PyErr Unit :=
  match rootArg with
  | none => addFoldersLoop fs strict st folders
  | some r =>
    match set_root fs st r with
    | (st1, .ok _) => addFoldersLoop fs strict st1 folders
    | (st1, .error e) => (st1, .error e)

/-- A Python value stored in a result row. -/
inductive PyVal where
  | str : String → PyVal
  | pathV : PyPath → PyVal
  | noneV : PyVal
deriving DecidableEq

/-- A row is a Python dict from field name to value. -/
def Row := List (String × PyVal)
deriving DecidableEq

/-- Key test for association-list dict operations. -/
def isKeyB {κ : Type} {β : Type} [DecidableEq κ] (k : κ) (kv : κ × β) : Bool :=
  decide (kv.1 = k)

/-- In-place replacement of the entry at key k (identity elsewhere). -/
def setEntry {κ : Type} {β : Type} [DecidableEq κ] (k : κ) (v : β) (kv : κ × β) : κ × β :=
  if kv.1 = k then (k, v) else kv

/-- Python d[k] = v: replace in place when the key is present (keeping its
position), append otherwise. -/
def dictSet {κ : Type} {β : Type} [DecidableEq κ] (d : List (κ × β)) (k : κ) (v : β) : List (κ × β) :=
  if d.any (isKeyB k) then d.map (setEntry k v) else d ++ [(k, v)]

/-- Python d.get(k) / k in d: the first entry with key k, if any. -/
def dictGet {κ : Type} {β : Type} [DecidableEq κ] (d : List (κ × β)) (k : κ) : Option β :=
  (d.find? (isKeyB k)).map Prod.snd

/-- Python d.update(u): set each entry of u into d, in u's order. -/
def dictUpdate {κ : Type} {β : Type} [DecidableEq κ] (d u : List (κ × β)) : List (κ × β) :=
  u.foldl (fun acc kv => dictSet acc kv.1 kv.2) d

/-- A compiled regex, extensionally: re.match(r, s) is none (no
leading-anchor match) or the groupdict of the match object. -/
def PyRegex := String → Option (List (String × Option String))

/-- A value of the regex_info dict: a single pattern, or a classifier
mapping labels to patterns. -/
inductive RegexEntry where
  | single : PyRegex → RegexEntry
  | classifier : List (String × PyRegex) → RegexEntry

/-- m.groupdict() turned into row entries (absent captures become None). -/
def groupdictRow (gd : List (String × Option String)) : Row :=
  gd.map (fun kv => (kv.1, match kv.2 with | some s => PyVal.str s | none => PyVal.noneV))

/-- One iteration of the classifier inner loop: a matching pattern sets
row["info"] to its label, a failing one leaves the row alone. There is no
break, so iteration always continues through the whole mapping. -/
def classifyFoldStep (part : String) (r : Row) (kv : String × PyRegex) : Row :=
  match kv.2 part with
  | some _ => dictSet r "info" (PyVal.str kv.1)
  | none => r

/-- The body of the loop over enumerate(reversed(parts)) for one position:
ip is (position index, segment). Positions absent from the effective map
are skipped; a classifier entry runs the label loop (never touching keep);
a single entry merges the groupdict on success and, on failure, clears
keep exactly when require_match is set. -/
def processPosition (mod : List (Nat × RegexEntry)) (require_match : Bool) (acc : Row × Bool) (ip : Nat × String) : Row × Bool :=
  match dictGet mod ip.1 with
  | none => acc
  | some (.classifier labels) => (labels.foldl (classifyFoldStep ip.2) acc.1, acc.2)
  | some (.single reg) =>
    match reg ip.2 with
    | some m => (dictUpdate acc.1 (groupdictRow m), acc.2)
    | none => if require_match then (acc.1, false) else acc

/-- The dict comprehension regex_info_mod: keys taken modulo the segment
count of the current file, later entries silently overwriting earlier ones
that collide. -/
def effectiveMap (regex_info : List (Nat × RegexEntry)) (n : Nat) : List (Nat × RegexEntry) :=
  regex_info.foldl (fun d ir => dictSet d (ir.1 % n) ir.2) []

/-- The full position loop for one file: fold over
enumerate(reversed(parts)) starting from (initial row, keep = true). -/
def processParts (mod : List (Nat × RegexEntry)) (require_match : Bool) (row : Row) (parts : List String) : Row × Bool :=
  (parts.reverse.enum).foldl (processPosition mod require_match) (row, true)

/-- The fixed fields of a fresh row for a matched file. -/
def initRow (file : PyPath) : Row :=
  [("filename", PyVal.str file.name), ("path", PyVal.pathV file), ("suffix", PyVal.str file.suffix)]

/-- file.relative_to(self.root): a list-valued root raises TypeError. -/
def PyPath.relativeToRoot (p : PyPath) (r : RootVal) : Except PyErr PyPath :=
  match r with
  | .path base => p.relativeTo base
  | .pathList _ => .error (.typeError "argument should be a str or an os.PathLike object, not list")

/-- Processing of one matched file inside query: build the row, relativize
against the root (which can raise), build the effective regex map (the
dict comprehension divides by len(parts), raising ZeroDivisionError when
it iterates with zero segments), run the position loop, and return the row
when keep survived. -/
def processFile (root : RootVal) (regex_info : List (Nat × RegexEntry)) (require_match : Bool) (file : PyPath) : Except PyErr (Option Row) :=
  match file.relativeToRoot root with
  | .error e => .error e
  | .ok rel =>
    let parts := rel.segments
    if parts.length = 0 ∧ regex_info.isEmpty = false then
      .error .zeroDivisionError
    else
      let rk := processParts (effectiveMap regex_info parts.length) require_match (initRow file) parts
      .ok (if rk.2 then some rk.1 else none)

/-- Evaluation of the argument of a verbose diagnostic print: the printed
text is irrelevant, but relative_to inside it can raise. -/
def verboseCheck (verbose : Bool) (p : PyPath) (r : RootVal) : Except PyErr Unit :=
  if verbose then (p.relativeToRoot r).map (fun _ => ()) else .ok ()

/-- The body of the file loop of query: the verbose per-file print (whose
argument can raise), then processFile; a kept row is appended. -/
def queryFileStep (root : RootVal) (regex_info : List (Nat × RegexEntry)) (require_match verbose : Bool) (rows : List Row) (file : PyPath) : Except PyErr (List Row) :=
  match verboseCheck verbose file root with
  | .error e => .error e
  | .ok _ =>
    match processFile root regex_info require_match file with
    | .error e => .error e
    | .ok (some row) => .ok (rows ++ [row])
    | .ok none => .ok rows

/-- The body of the folder loop of query: the verbose folder print (whose
argument can raise), then rglob and the file loop. -/
def queryFolderStep (fs : FileSystem) (root : RootVal) (q : String) (regex_info : List (Nat × RegexEntry)) (require_match verbose : Bool) (rows : List Row) (folder : PyPath) : Except PyErr (List Row) :=
  match verboseCheck verbose folder root with
  | .error e => .error e
  | .ok _ => (fs.rglobSys folder q).foldlM (queryFileStep root regex_info require_match verbose) rows

/-- The row-collection phase of DataFinder.query: all folders in
registration order, starting from the empty row list. -/
def queryRows (fs : FileSystem) (st : DataFinder) (q : String) (regex_info : List (Nat × RegexEntry)) (require_match verbose : Bool) : Except PyErr (List Row) :=
  st.folders.foldlM (queryFolderStep fs st.root q regex_info require_match verbose) []

/-- The pandas DataFrame abstraction: named columns, rows, row index. -/
structure DataFrame where
  columns : List String
  rows : List Row
  index : List Nat
deriving DecidableEq

/-- pd.DataFrame(): the empty, column-less frame. -/
def DataFrame.emptyDF : DataFrame :=
  { columns := [], rows := [], index := [] }

/-- Append a key if it is not present yet. -/
def insertKey (cols : List String) (k : String) : List String :=
  if k ∈ cols then cols else cols ++ [k]

/-- Column set of pd.DataFrame(rows): union of the row keys in order of
first appearance. -/
def unionKeys (rows : List Row) : List String :=
  rows.foldl (fun cols r => r.foldl (fun cs kv => insertKey cs kv.1) cols) []

/-- DataFinder.query. The returned pair is (state after the call, outcome);
the method body never assigns to self, so the state component is the input
state. sortImpl stands for sort_values(by="filename") with the library
default kind='quicksort' (see the header comment); reset_index(drop=True)
yields the contiguous zero-based index. Zero kept rows short-circuit to
the empty column-less frame. -/
def query (fs : FileSystem) (sortImpl : List Row → List Row) (st : DataFinder) (q : String) (regex_info : List (Nat × RegexEntry)) (require_match verbose : Bool) : DataFinder × Except PyErr DataFrame :=
  (st,
    match queryRows fs st q regex_info require_match verbose with
    | .error e => .error e
    | .ok rows =>
      if rows.length = 0 then .ok DataFrame.emptyDF
      else .ok { columns := unionKeys rows, rows := sortImpl rows, index := List.range (sortImpl rows).length })

/-- Python string comparison (code-point lexicographic) on char lists. -/
def charListLe : List Char → List Char → Bool
  | [], _ => true
  | _ :: _, [] => false
  | a :: as, b :: bs => if a.toNat = b.toNat then charListLe as bs else decide (a.toNat < b.toNat)

/-- Python string less-or-equal, as used by sorting on the filename
column. -/
def strLe (a b : String) : Bool :=
  charListLe a.toList b.toList

/-- The sort key of a row: its filename field (rows built by query always
carry one). -/
def rowFilename (r : Row) : String :=
  match dictGet r "filename" with
  | some (PyVal.str s) => s
  | _ => ""

/-- Row order used by sort_values(by="filename"). -/
def rowLe (a b : Row) : Prop :=
  strLe (rowFilename a) (rowFilename b) = true

instance : DecidableRel rowLe :=
  fun a b => inferInstanceAs (Decidable (strLe (rowFilename a) (rowFilename b) = true))

/-- The documented contract of sort_values(by="filename") with the default
kind: the output is a permutation of the input that is non-decreasing in
the filename key. Stability is not part of the contract. -/
def SortsByFilename (f : List Row → List Row) : Prop :=
  ∀ rows : List Row, List.Perm (f rows) rows ∧ List.Sorted rowLe (f rows)

/-- A stable realization of the sort contract (insertion sort). -/
def stableSortF : List Row → List Row :=
  fun rows => List.insertionSort rowLe rows

/-- An anti-stable realization of the sort contract: reverse, then
insertion-sort, so runs of equal keys come out in reversed input order. -/
def antiSortF : List Row → List Row :=
  fun rows => List.insertionSort rowLe rows.reverse

/-- The label selected by the classifier loop, described from the outside:
the last label in mapping order whose pattern matches the segment. -/
def lastMatchingLabel (labels : List (String × PyRegex)) (s : String) : Option String :=
  (labels.reverse.find? (fun kv => (kv.2 s).isSome)).map Prod.fst

/-- Outcome test for Except values. -/
def isOkE {α : Type} (e : Except PyErr α) : Bool :=
  match e with
  | .ok _ => true
  | .error _ => false

/-- Concrete fixtures for counterexamples and witnesses. -/
def rootR : PyPath := { absolute := true, segments := ["r"] }

def subR : PyPath := { absolute := true, segments := ["r", "sub"] }

def otherR : PyPath := { absolute := true, segments := ["other"] }

def pData : PyPath := { absolute := true, segments := ["data"] }

def pBackup : PyPath := { absolute := true, segments := ["backup"] }

def fs1 : FileSystem := { dirs := [pData], rglobSys := fun _ _ => [] }

def st1 : DataFinder := { root := RootVal.path pData, folders := [] }

/-- A regex that leading-anchor-matches any string starting with the
character A (code point 65), with no capture groups. -/
def regexLeadA : PyRegex := fun s =>
  match s.toList with
  | c :: _ => if c.toNat = 65 then some [] else none
  | [] => none

def fileABx : PyPath := { absolute := true, segments := ["r", "sub", "ABx.tif"] }

def fs2 : FileSystem := { dirs := [rootR, subR], rglobSys := fun _ _ => [fileABx] }

def st2 : DataFinder := { root := RootVal.path rootR, folders := [subR] }

/-- A classifier position whose two patterns both match the same file. -/
def ri2 : List (Nat × RegexEntry) :=
  [(0, RegexEntry.classifier [("typeA", regexLeadA), ("typeB", regexLeadA)])]

def row2 : Row :=
  [("filename", PyVal.str "ABx.tif"), ("path", PyVal.pathV fileABx),
   ("suffix", PyVal.str ".tif"), ("info", PyVal.str "typeB")]

def fs3 : FileSystem := { dirs := [rootR, otherR], rglobSys := fun _ _ => [] }

/-- A registry whose folder is an existing absolute directory that is not
under the stored root (reachable through add_folders with an absolute
path). -/
def st3 : DataFinder := { root := RootVal.path rootR, folders := [otherR] }

def fileXa : PyPath := { absolute := true, segments := ["r", "a", "x.tif"] }

def fileXb : PyPath := { absolute := true, segments := ["r", "b", "x.tif"] }

def fs4 : FileSystem := { dirs := [rootR], rglobSys := fun _ _ => [fileXa, fileXb] }

def st4 : DataFinder := { root := RootVal.path rootR, folders := [rootR] }

def rowXa : Row :=
  [("filename", PyVal.str "x.tif"), ("path", PyVal.pathV fileXa), ("suffix", PyVal.str ".tif")]

def rowXb : Row :=
  [("filename", PyVal.str "x.tif"), ("path", PyVal.pathV fileXb), ("suffix", PyVal.str ".tif")]

def fs5 : FileSystem := { dirs := [rootR], rglobSys := fun _ _ => [] }

def st5 : DataFinder := { root := RootVal.path rootR, folders := [rootR] }

def dirA : PyPath := { absolute := true, segments := ["a"] }

def dirBad : PyPath := { absolute := true, segments := ["bad"] }

def dirC : PyPath := { absolute := true, segments := ["c"] }

def fs6 : FileSystem := { dirs := [dirA, dirC], rglobSys := fun _ _ => [] }

/-- A regex that matches any string and captures it under the name cap. -/
def regexCap : PyRegex := fun s => some [("cap", some s)]

def fileD3 : PyPath := { absolute := true, segments := ["r", "s1", "s2", "f.txt"] }

def relD3 : PyPath := { absolute := false, segments := ["s1", "s2", "f.txt"] }

def ri7 : List (Nat × RegexEntry) := [(3, RegexEntry.single regexCap)]

/-- A regex that never matches. -/
def regexFail : PyRegex := fun _ => none

def mod8 : List (Nat × RegexEntry) := [(0, RegexEntry.single regexFail)]

def labelsW : List (String × PyRegex) := [("typeA", regexLeadA)]

def modW : List (Nat × RegexEntry) := [(0, RegexEntry.classifier labelsW)]

def fsE : FileSystem := { dirs := [], rglobSys := fun _ _ => [] }

def stE : DataFinder := { root := RootVal.path rootR, folders := [rootR] }

theorem find?_map_setEntry_ne {κ β : Type} [DecidableEq κ] (d : List (κ × β)) (k j : κ) (v : β)
    (hjk : j ≠ k) :
    (d.map (setEntry k v)).find? (isKeyB j) = d.find? (isKeyB j) := by
  induction d with
  | nil => rfl
  | cons kv d ih =>
    by_cases hk : kv.1 = k
    · have h1 : setEntry k v kv = (k, v) := by simp [setEntry, hk]
      have h2 : isKeyB j (k, v) = false := by simp [isKeyB]; exact fun h => hjk h.symm
      have h3 : isKeyB j kv = false := by simp [isKeyB, hk]; exact fun h => hjk h.symm
      simp [List.map_cons, h1, List.find?_cons, h2, h3, ih]
    · have h1 : setEntry k v kv = kv := by simp [setEntry, hk]
      by_cases hj : kv.1 = j
      · simp [List.map_cons, h1, List.find?_cons, isKeyB, hj]
      · simp [List.map_cons, h1, List.find?_cons, isKeyB, hj, ih]

theorem find?_map_setEntry_eq {κ β : Type} [DecidableEq κ] (d : List (κ × β)) (k : κ) (v : β)
    (h : d.any (isKeyB k) = true) :
    (d.map (setEntry k v)).find? (isKeyB k) = some (k, v) := by
  induction d with
  | nil => simp at h
  | cons kv d ih =>
    by_cases hk : kv.1 = k
    · have h1 : setEntry k v kv = (k, v) := by simp [setEntry, hk]
      simp [List.map_cons, h1, List.find?_cons, isKeyB]
    · have h1 : setEntry k v kv = kv := by simp [setEntry, hk]
      have h2 : d.any (isKeyB k) = true := by
        simp [List.any_cons, isKeyB, hk] at h
        simpa [isKeyB] using h
      simp [List.map_cons, h1, List.find?_cons, isKeyB, hk, ih h2]

theorem find?_none_of_any_false {κ β : Type} [DecidableEq κ] (d : List (κ × β)) (k : κ)
    (h : d.any (isKeyB k) = false) :
    d.find? (isKeyB k) = none := by
  induction d with
  | nil => rfl
  | cons kv d ih =>
    rw [List.any_cons, Bool.or_eq_false_iff] at h
    simp [List.find?_cons, h.1, ih h.2]

/-- Lookup after update, for arbitrary association lists. -/
theorem dictGet_dictSet {κ β : Type} [DecidableEq κ] (d : List (κ × β)) (k j : κ) (v : β) :
    dictGet (dictSet d k v) j = if j = k then some v else dictGet d j := by
  cases hA : d.any (isKeyB k) with
  | true =>
    by_cases hj : j = k
    · subst hj
      simp [dictGet, dictSet, hA, find?_map_setEntry_eq d j v hA]
    · simp [dictGet, dictSet, hA, find?_map_setEntry_ne d k j v hj, hj]
  | false =>
    have hnone : d.find? (isKeyB k) = none := find?_none_of_any_false d k hA
    by_cases hj : j = k
    · subst hj
      simp [dictGet, dictSet, hA, List.find?_append, hnone, List.find?_cons, isKeyB]
    · have hkj : isKeyB j (k, v) = false := by
        unfold isKeyB
        exact decide_eq_false (fun hh => hj hh.symm)
      have h2 : List.find? (isKeyB j) [(k, v)] = none := by
        rw [List.find?_cons, hkj]
        rfl
      simp [dictGet, dictSet, hA, List.find?_append, h2, hj]

theorem any_map_setEntry {κ β : Type} [DecidableEq κ] (d : List (κ × β)) (k : κ) (v : β) :
    (d.map (setEntry k v)).any (isKeyB k) = d.any (isKeyB k) := by
  induction d with
  | nil => rfl
  | cons kv d ih =>
    by_cases hk : kv.1 = k
    · have h1 : setEntry k v kv = (k, v) := by simp [setEntry, hk]
      simp [List.map_cons, h1, List.any_cons, isKeyB, hk]
    · have h1 : setEntry k v kv = kv := by simp [setEntry, hk]
      simp [List.map_cons, h1, List.any_cons, isKeyB, hk, ih]

theorem map_setEntry_setEntry {κ β : Type} [DecidableEq κ] (d : List (κ × β)) (k : κ) (v w : β) :
    (d.map (setEntry k v)).map (setEntry k w) = d.map (setEntry k w) := by
  induction d with
  | nil => rfl
  | cons kv d ih =>
    by_cases hk : kv.1 = k
    · have h1 : setEntry k v kv = (k, v) := by simp [setEntry, hk]
      have h2 : setEntry k w (k, v) = (k, w) := by simp [setEntry]
      have h3 : setEntry k w kv = (k, w) := by simp [setEntry, hk]
      simp [List.map_cons, h1, h2, h3, ih]
    · have h1 : setEntry k v kv = kv := by simp [setEntry, hk]
      simp [List.map_cons, h1, ih]

theorem map_setEntry_of_absent {κ β : Type} [DecidableEq κ] (d : List (κ × β)) (k : κ) (w : β)
    (h : d.any (isKeyB k) = false) :
    d.map (setEntry k w) = d := by
  induction d with
  | nil => rfl
  | cons kv d ih =>
    rw [List.any_cons, Bool.or_eq_false_iff] at h
    have hk : kv.1 ≠ k := by
      have := h.1
      simp [isKeyB] at this
      exact this
    have h1 : setEntry k w kv = kv := by simp [setEntry, hk]
    simp [List.map_cons, h1, ih h.2]

/-- Two successive writes to the same key collapse to the last one. -/
theorem dictSet_dictSet {κ β : Type} [DecidableEq κ] (d : List (κ × β)) (k : κ) (v w : β) :
    dictSet (dictSet d k v) k w = dictSet d k w := by
  by_cases h : d.any (isKeyB k) = true
  · have e1 : dictSet d k v = d.map (setEntry k v) := by
      unfold dictSet; rw [if_pos h]
    have e2 : dictSet d k w = d.map (setEntry k w) := by
      unfold dictSet; rw [if_pos h]
    have h3 : (d.map (setEntry k v)).any (isKeyB k) = true := by
      rw [any_map_setEntry]; exact h
    rw [e1, e2]
    unfold dictSet
    rw [if_pos h3, map_setEntry_setEntry]
  · have hb : d.any (isKeyB k) = false := by simpa using h
    have e1 : dictSet d k v = d ++ [(k, v)] := by
      unfold dictSet; rw [if_neg h]
    have e2 : dictSet d k w = d ++ [(k, w)] := by
      unfold dictSet; rw [if_neg h]
    have h2 : (d ++ [(k, v)]).any (isKeyB k) = true := by
      simp [List.any_append, isKeyB]
    rw [e1, e2]
    unfold dictSet
    rw [if_pos h2, List.map_append, map_setEntry_of_absent d k w hb]
    have h3 : setEntry k w (k, v) = (k, w) := by simp [setEntry]
    simp [h3]

theorem charListLe_cons_cons (a b : Char) (as bs : List Char) :
    charListLe (a :: as) (b :: bs) =
      if a.toNat = b.toNat then charListLe as bs else decide (a.toNat < b.toNat) := rfl

theorem charListLe_cons_nil (a : Char) (as : List Char) :
    charListLe (a :: as) [] = false := rfl

theorem charListLe_total (as : List Char) : ∀ bs : List Char,
    charListLe as bs = true ∨ charListLe bs as = true := by
  induction as with
  | nil => intro bs; left; rfl
  | cons a as ih =>
    intro bs
    cases bs with
    | nil => right; rfl
    | cons b bs =>
      rw [charListLe_cons_cons, charListLe_cons_cons]
      by_cases hab : a.toNat = b.toNat
      · rw [if_pos hab, if_pos hab.symm]
        exact ih bs
      · have hba : b.toNat ≠ a.toNat := fun h => hab h.symm
        rw [if_neg hab, if_neg hba]
        rcases lt_or_gt_of_ne hab with h | h
        · left; exact decide_eq_true h
        · right; exact decide_eq_true h

theorem charListLe_trans (as : List Char) : ∀ bs cs : List Char,
    charListLe as bs = true → charListLe bs cs = true → charListLe as cs = true := by
  induction as with
  | nil => intro bs cs _ _; rfl
  | cons a as ih =>
    intro bs cs h1 h2
    cases bs with
    | nil =>
      rw [charListLe_cons_nil] at h1
      exact Bool.noConfusion h1
    | cons b bs =>
      cases cs with
      | nil =>
        rw [charListLe_cons_nil] at h2
        exact Bool.noConfusion h2
      | cons c cs =>
        rw [charListLe_cons_cons] at h1 h2 ⊢
        by_cases hab : a.toNat = b.toNat <;> by_cases hbc : b.toNat = c.toNat
        · rw [if_pos hab] at h1
          rw [if_pos hbc] at h2
          rw [if_pos (hab.trans hbc)]
          exact ih bs cs h1 h2
        · rw [if_pos hab] at h1
          rw [if_neg hbc] at h2
          have hlt : b.toNat < c.toNat := of_decide_eq_true h2
          have hac : a.toNat ≠ c.toNat := fun h => hbc (hab.symm.trans h)
          rw [if_neg hac]
          exact decide_eq_true (by rw [hab]; exact hlt)
        · rw [if_neg hab] at h1
          rw [if_pos hbc] at h2
          have hlt : a.toNat < b.toNat := of_decide_eq_true h1
          have hac : a.toNat ≠ c.toNat := fun h => hab (h.trans hbc.symm)
          rw [if_neg hac]
          exact decide_eq_true (by rw [← hbc]; exact hlt)
        · rw [if_neg hab] at h1
          rw [if_neg hbc] at h2
          have hlt1 : a.toNat < b.toNat := of_decide_eq_true h1
          have hlt2 : b.toNat < c.toNat := of_decide_eq_true h2
          have hlt : a.toNat < c.toNat := hlt1.trans hlt2
          rw [if_neg (Nat.ne_of_lt hlt)]
          exact decide_eq_true hlt

instance : IsTotal Row rowLe :=
  ⟨fun a b => charListLe_total (rowFilename a).toList (rowFilename b).toList⟩

instance : IsTrans Row rowLe :=
  ⟨fun a b c hab hbc =>
    charListLe_trans (rowFilename a).toList (rowFilename b).toList (rowFilename c).toList hab hbc⟩

/-- The stable insertion sort satisfies the sort_values contract. -/
theorem stableSortF_valid : SortsByFilename stableSortF :=
  fun rows => ⟨List.perm_insertionSort rowLe rows, List.sorted_insertionSort rowLe rows⟩

/-- The anti-stable sort also satisfies the sort_values contract: nothing
in the contract pins down the order of rows with equal filenames. -/
theorem antiSortF_valid : SortsByFilename antiSortF :=
  fun rows =>
    ⟨(List.perm_insertionSort rowLe rows.reverse).trans (List.reverse_perm rows),
     List.sorted_insertionSort rowLe rows.reverse⟩

/-- The classifier inner loop collapses to a single write of the last
matching label (or no write at all). -/
theorem classify_foldl (s : String) (labels : List (String × PyRegex)) :
    ∀ row : Row, labels.foldl (classifyFoldStep s) row =
      match lastMatchingLabel labels s with
      | some key => dictSet row "info" (PyVal.str key)
      | none => row := by
  induction labels with
  | nil => intro row; rfl
  | cons kv rest ih =>
    intro row
    rw [List.foldl_cons, ih (classifyFoldStep s row kv)]
    unfold lastMatchingLabel
    have hrev : (kv :: rest).reverse = rest.reverse ++ [kv] := by simp
    rw [hrev, List.find?_append]
    cases hf : rest.reverse.find? (fun p => (p.2 s).isSome) with
    | some y =>
      simp only [Option.or, Option.map_some']
      unfold classifyFoldStep
      cases hm : kv.2 s with
      | some m => rw [dictSet_dictSet]
      | none => rfl
    | none =>
      simp only [Option.or]
      rw [List.find?_cons]
      unfold classifyFoldStep
      cases hm : kv.2 s with
      | some m => simp [hm]
      | none => simp [hm]

/-- Lookup in the effective regex map, with a generalized accumulator:
the value found is the last entry of the raw map whose key is congruent
to the position modulo the segment count. -/
theorem foldl_dictSet_get (n : Nat) (ri : List (Nat × RegexEntry)) :
    ∀ (d : List (Nat × RegexEntry)) (j : Nat),
      dictGet (ri.foldl (fun d ir => dictSet d (ir.1 % n) ir.2) d) j =
        match ri.reverse.find? (fun p => decide (p.1 % n = j)) with
        | some e => some e.2
        | none => dictGet d j := by
  induction ri with
  | nil => intro d j; rfl
  | cons x ri ih =>
    intro d j
    rw [List.foldl_cons, ih]
    have hrev : (x :: ri).reverse = ri.reverse ++ [x] := by simp
    rw [hrev, List.find?_append]
    cases hf : ri.reverse.find? (fun p => decide (p.1 % n = j)) with
    | some e => simp [Option.or]
    | none =>
      simp only [Option.or]
      rw [List.find?_cons]
      by_cases hx : x.1 % n = j
      · rw [decide_eq_true hx, dictGet_dictSet]
        simp [hx]
      · rw [decide_eq_false hx, dictGet_dictSet]
        have hjx : ¬j = x.1 % n := fun h => hx h.symm
        simp [hjx]

/-- Lookup in effectiveMap: the raw keys are reduced modulo the segment
count and, among colliding raw keys, the last one in iteration order
wins. -/
theorem effectiveMap_get (ri : List (Nat × RegexEntry)) (n j : Nat) :
    dictGet (effectiveMap ri n) j =
      (ri.reverse.find? (fun p => decide (p.1 % n = j))).map Prod.snd := by
  unfold effectiveMap
  rw [foldl_dictSet_get]
  cases ri.reverse.find? (fun p => decide (p.1 % n = j)) <;> rfl

/-- One position step never lets the keep flag influence the row under
construction. -/
theorem processPosition_fst_keep (mod : List (Nat × RegexEntry)) (rm : Bool) (row : Row)
    (b1 b2 : Bool) (ip : Nat × String) :
    (processPosition mod rm (row, b1) ip).1 = (processPosition mod rm (row, b2) ip).1 := by
  cases h : dictGet mod ip.1 with
  | none => simp [processPosition, h]
  | some e =>
    cases e with
    | classifier labels => simp [processPosition, h]
    | single reg =>
      cases hm : reg ip.2 with
      | some m => simp [processPosition, h, hm]
      | none => cases rm <;> simp [processPosition, h, hm]

/-- The whole position loop builds the same row whatever the incoming
keep flag: a failed required match never short-circuits the remaining
extractions. -/
theorem foldl_processPosition_fst (mod : List (Nat × RegexEntry)) (rm : Bool)
    (l : List (Nat × String)) :
    ∀ (row : Row) (b1 b2 : Bool),
      (l.foldl (processPosition mod rm) (row, b1)).1 =
        (l.foldl (processPosition mod rm) (row, b2)).1 := by
  induction l with
  | nil => intro row b1 b2; rfl
  | cons ip l ih =>
    intro row b1 b2
    rw [List.foldl_cons, List.foldl_cons]
    have hfst := processPosition_fst_keep mod rm row b1 b2 ip
    rcases e1 : processPosition mod rm (row, b1) ip with ⟨r1, k1⟩
    rcases e2 : processPosition mod rm (row, b2) ip with ⟨r2, k2⟩
    rw [e1, e2] at hfst
    simp only at hfst
    rw [hfst]
    exact ih r2 k1 k2

/-- One position step preserves the keep flag when require_match is
false. -/
theorem processPosition_keep_false (mod : List (Nat × RegexEntry)) (acc : Row × Bool)
    (ip : Nat × String) :
    (processPosition mod false acc ip).2 = acc.2 := by
  cases h : dictGet mod ip.1 with
  | none => simp [processPosition, h]
  | some e =>
    cases e with
    | classifier labels => simp [processPosition, h]
    | single reg =>
      cases hm : reg ip.2 with
      | some m => simp [processPosition, h, hm]
      | none => simp [processPosition, h, hm]

/-- The whole position loop preserves the keep flag when require_match is
false: failed matches never cause exclusion. -/
theorem foldl_processPosition_keep_false (mod : List (Nat × RegexEntry))
    (l : List (Nat × String)) :
    ∀ acc : Row × Bool, (l.foldl (processPosition mod false) acc).2 = acc.2 := by
  induction l with
  | nil => intro acc; rfl
  | cons ip l ih =>
    intro acc
    rw [List.foldl_cons, ih]
    exact processPosition_keep_false mod acc ip

/-- The per-file body is the same with and without verbose narration: the
relative_to evaluated by the verbose print is exactly the one processFile
evaluates next, so even the error outcome coincides. -/
theorem queryFileStep_verbose (root : RootVal) (ri : List (Nat × RegexEntry)) (rm : Bool)
    (rows : List Row) (file : PyPath) :
    queryFileStep root ri rm true rows file = queryFileStep root ri rm false rows file := by
  unfold queryFileStep verboseCheck processFile
  cases h : file.relativeToRoot root with
  | error e => simp [h, Except.map]
  | ok rel => simp [h, Except.map]

theorem foldlM_except_congr {α β : Type} (f g : β → α → Except PyErr β)
    (h : ∀ b a, f b a = g b a) (l : List α) :
    ∀ b : β, List.foldlM f b l = List.foldlM g b l := by
  induction l with
  | nil => intro b; rfl
  | cons a l ih =>
    intro b
    rw [List.foldlM_cons, List.foldlM_cons, h b a]
    cases hg : g b a with
    | error e => rfl
    | ok b' => exact ih b'

/-- The per-folder body is verbose-invariant as soon as the folder is
relative to the root (so that the verbose folder print does not raise). -/
theorem queryFolderStep_verbose (fs : FileSystem) (root : RootVal) (q : String)
    (ri : List (Nat × RegexEntry)) (rm : Bool) (rows : List Row) (folder : PyPath)
    (h : isOkE (folder.relativeToRoot root) = true) :
    queryFolderStep fs root q ri rm true rows folder =
      queryFolderStep fs root q ri rm false rows folder := by
  unfold queryFolderStep verboseCheck
  cases hrel : folder.relativeToRoot root with
  | error e =>
    rw [hrel] at h
    exact Bool.noConfusion h
  | ok rel =>
    simp only [hrel, Except.map]
    exact foldlM_except_congr _ _ (fun b a => queryFileStep_verbose root ri rm b a) _ rows

/-- The row-collection fold is verbose-invariant when every folder is
relative to the root. -/
theorem queryRows_fold_verbose (fs : FileSystem) (root : RootVal) (q : String)
    (ri : List (Nat × RegexEntry)) (rm : Bool) (fl : List PyPath)
    (h : ∀ f ∈ fl, isOkE (f.relativeToRoot root) = true) :
    ∀ rows, List.foldlM (queryFolderStep fs root q ri rm true) rows fl =
      List.foldlM (queryFolderStep fs root q ri rm false) rows fl := by
  induction fl with
  | nil => intro rows; rfl
  | cons folder fl ih =>
    intro rows
    rw [List.foldlM_cons, List.foldlM_cons,
      queryFolderStep_verbose fs root q ri rm rows folder (h folder (by simp))]
    cases hres : queryFolderStep fs root q ri rm false rows folder with
    | error e => rfl
    | ok rows' => exact ih (fun f hf => h f (by simp [hf])) rows'

/-- A failed set_root raises before the trailing assignment, leaving the
stored root untouched. -/
theorem set_root_error_state (fs : FileSystem) (st : DataFinder) (arg : RootArg) (e : PyErr)
    (h : (set_root fs st arg).2 = Except.error e) : (set_root fs st arg).1 = st := by
  cases arg with
  | list rs =>
    cases hv : rs.filter fs.isDir with
    | nil => simp [set_root, hv]
    | cons a l => simp [set_root, hv] at h
  | single r =>
    by_cases hd : fs.isDir r = true
    · simp [set_root, hd] at h
    · simp [set_root, hd]

/-- C1: the spec says that after set_root on a list of candidates the
stored root equals the first candidate that is an existing directory; the
source's own docstring and inline comment say the same, but the trailing
unconditional assignment self.root = root overwrites valid_roots[0] with
the whole list, so the code stores the list itself. Evidence at the
failing input: candidates [/data, /backup] with /data an existing
directory. -/
theorem thm_C1_set_root_list_bug :
    set_root fs1 st1 (RootArg.list [pData, pBackup]) =
      ({ root := RootVal.pathList [pData, pBackup], folders := [] }, Except.ok ()) ∧
    RootVal.pathList [pData, pBackup] ≠ RootVal.path pData := by
  constructor
  · decide
  · decide

/-- C2 (counterexample): a classifier position whose two patterns both
match the segment ABx.tif yields info = typeB, the LAST matching label,
not the first one as the claim states: the source loop has no break and
later matches overwrite row["info"]. -/
theorem thm_C2_counterexample :
    (query fs2 stableSortF st2 "*.tif" ri2 true false).2 =
      Except.ok { columns := ["filename", "path", "suffix", "info"], rows := [row2], index := [0] } ∧
    dictGet row2 "info" = some (PyVal.str "typeB") ∧
    PyVal.str "typeB" ≠ PyVal.str "typeA" := by
  refine ⟨?_, ?_, ?_⟩
  · decide
  · decide
  · decide

/-- C2 (amended): for a classifier position, query tries every
(label, pattern) pair in mapping order without stopping; each matching
pattern overwrites info, so the LAST matching label wins; when no pattern
matches, the position contributes no info and never affects the keep
flag. -/
theorem thm_C2_classifier_last_match (mod : List (Nat × RegexEntry)) (rm : Bool) (row : Row)
    (keep : Bool) (i : Nat) (part : String) (labels : List (String × PyRegex))
    (h : dictGet mod i = some (RegexEntry.classifier labels)) :
    processPosition mod rm (row, keep) (i, part) =
      (match lastMatchingLabel labels part with
       | some key => dictSet row "info" (PyVal.str key)
       | none => row, keep) := by
  simp only [processPosition, h]
  rw [classify_foldl part labels row]

/-- C2 (witness): the amended theorem applied to a concrete classifier
position and segment. -/
theorem thm_C2_witness :
    processPosition modW true ([("filename", PyVal.str "Af")], true) (0, "Af") =
      (match lastMatchingLabel labelsW "Af" with
       | some key => dictSet [("filename", PyVal.str "Af")] "info" (PyVal.str key)
       | none => [("filename", PyVal.str "Af")], true) :=
  thm_C2_classifier_last_match modW true [("filename", PyVal.str "Af")] true 0 "Af" labelsW rfl

/-- C3 (counterexample): with a registered folder that is an existing
directory outside the root and a pattern matching no files, verbose=false
returns the empty table while verbose=true raises ValueError, because the
verbose narration itself evaluates folder.relative_to(root). -/
theorem thm_C3_counterexample :
    (query fs3 stableSortF st3 "*" [] true true).2 =
      Except.error (PyErr.valueError "path is not relative to the base path") ∧
    (query fs3 stableSortF st3 "*" [] true false).2 = Except.ok DataFrame.emptyDF ∧
    (query fs3 stableSortF st3 "*" [] true true).2 ≠ (query fs3 stableSortF st3 "*" [] true false).2 := by
  refine ⟨?_, ?_, ?_⟩
  · decide
  · decide
  · decide

/-- C3 (amended): verbose controls only diagnostic narration PROVIDED
every registered folder is relative to the stored root, so that the
argument of the verbose folder print does not raise; under that condition
the verbose and silent runs return identical data and identical
error/non-error outcomes (the per-file verbose print needs no extra
condition: it evaluates exactly the relative_to that processFile evaluates
next, with the same error). -/
theorem thm_C3_verbose_invariant (fs : FileSystem) (f : List Row → List Row) (st : DataFinder)
    (q : String) (ri : List (Nat × RegexEntry)) (rm : Bool)
    (h : ∀ folder ∈ st.folders, isOkE (folder.relativeToRoot st.root) = true) :
    query fs f st q ri rm true = query fs f st q ri rm false := by
  unfold query queryRows
  rw [queryRows_fold_verbose fs st.root q ri rm st.folders h []]

/-- C3 (witness): the amended theorem applied to a concrete registry whose
folder lies under the root. -/
theorem thm_C3_witness :
    query fs2 stableSortF st2 "*.tif" [] true true = query fs2 stableSortF st2 "*.tif" [] true false :=
  thm_C3_verbose_invariant fs2 stableSortF st2 "*.tif" [] true (by decide)

/-- C4 (counterexample): sort_values with the default kind='quicksort'
guarantees only a sorted permutation, not stability; antiSortF satisfies
that contract, yet on two kept rows with equal filenames (x.tif from two
different directories, encountered as [rowXa, rowXb]) the returned rows
are [rowXb, rowXa], not the stable order the claim predicts. -/
theorem thm_C4_counterexample :
    SortsByFilename antiSortF ∧
    (query fs4 antiSortF st4 "*.tif" [] true false).2 =
      Except.ok { columns := ["filename", "path", "suffix"], rows := [rowXb, rowXa], index := [0, 1] } ∧
    rowFilename rowXa = rowFilename rowXb ∧
    [rowXb, rowXa] ≠ stableSortF [rowXa, rowXb] := by
  refine ⟨antiSortF_valid, ?_, ?_, ?_⟩
  · decide
  · decide
  · decide

/-- C4 (amended): when at least one row is kept, the returned table holds
exactly the kept rows (a permutation) in non-decreasing filename order,
with a contiguous zero-based index and columns taken from the kept rows;
the relative order of rows with equal filenames is not specified, because
the default pandas quicksort is not guaranteed stable. -/
theorem thm_C4_sorted_result (f : List Row → List Row) (fs : FileSystem) (st : DataFinder)
    (q : String) (ri : List (Nat × RegexEntry)) (rm v : Bool) (rows : List Row)
    (hf : SortsByFilename f) (hrows : queryRows fs st q ri rm v = Except.ok rows)
    (hne : rows ≠ []) :
    (query fs f st q ri rm v).2 =
      Except.ok { columns := unionKeys rows, rows := f rows, index := List.range (f rows).length } ∧
    List.Perm (f rows) rows ∧ List.Sorted rowLe (f rows) := by
  refine ⟨?_, (hf rows).1, (hf rows).2⟩
  unfold query
  rw [hrows]
  have hlen : ¬rows.length = 0 := fun hl => hne (List.length_eq_zero.mp hl)
  simp [hlen]

/-- C4 (witness): the amended theorem applied to the two-tied-rows run
with the stable realization of the sort contract. -/
theorem thm_C4_witness :
    (query fs4 stableSortF st4 "*.tif" [] true false).2 =
      Except.ok { columns := unionKeys [rowXa, rowXb], rows := stableSortF [rowXa, rowXb], index := List.range (stableSortF [rowXa, rowXb]).length } ∧
    List.Perm (stableSortF [rowXa, rowXb]) [rowXa, rowXb] ∧
    List.Sorted rowLe (stableSortF [rowXa, rowXb]) :=
  thm_C4_sorted_result stableSortF fs4 st4 "*.tif" [] true false [rowXa, rowXb]
    stableSortF_valid (by decide) (by decide)

/-- C5: whenever the row-collection phase keeps zero rows (in particular
when the glob matches no files), query returns the empty column-less
DataFrame and raises no error. -/
theorem thm_C5_zero_rows_empty (fs : FileSystem) (f : List Row → List Row) (st : DataFinder)
    (q : String) (ri : List (Nat × RegexEntry)) (rm v : Bool)
    (h : queryRows fs st q ri rm v = Except.ok []) :
    (query fs f st q ri rm v).2 = Except.ok DataFrame.emptyDF ∧
    DataFrame.emptyDF.columns = [] ∧ DataFrame.emptyDF.rows = [] := by
  refine ⟨?_, rfl, rfl⟩
  unfold query
  rw [h]
  simp

/-- C5 (witness): a concrete query whose glob enumerates nothing. -/
theorem thm_C5_witness :
    (query fs5 stableSortF st5 "*.none" [] true false).2 = Except.ok DataFrame.emptyDF ∧
    DataFrame.emptyDF.columns = [] ∧ DataFrame.emptyDF.rows = [] :=
  thm_C5_zero_rows_empty fs5 stableSortF st5 "*.none" [] true false (by decide)

/-- C6: with strict=true, the add_folders loop raises at the first
resolved path that is not an existing directory, keeping the folders
appended by the earlier iterations of the same call (no rollback) and
never reaching the later paths; with strict=false, such a path is skipped
(after a printed warning) and the loop continues with the rest. -/
theorem thm_C6_add_folders_strict :
    (∀ (fs : FileSystem) (root : RootVal) (fl : List PyPath) (pre res : List PyPath)
       (bad badR : PyPath) (post : List PyPath),
       List.Forall₂ (fun f r => resolveFolder root f = Except.ok r ∧ fs.isDir r = true) pre res →
       resolveFolder root bad = Except.ok badR → fs.isDir badR = false →
       addFoldersLoop fs true { root := root, folders := fl } (pre ++ bad :: post) =
         ({ root := root, folders := fl ++ res },
          Except.error (PyErr.valueError "Folder does not exist or is not a directory."))) ∧
    (∀ (fs : FileSystem) (st : DataFinder) (f : PyPath) (rest : List PyPath) (b : PyPath),
       resolveFolder st.root f = Except.ok b → fs.isDir b = false →
       addFoldersLoop fs false st (f :: rest) = addFoldersLoop fs false st rest) := by
  constructor
  · intro fs root fl pre res bad badR post hpre hbad hdir
    induction hpre generalizing fl with
    | nil =>
      rw [List.nil_append]
      simp [addFoldersLoop, hbad, hdir]
    | @cons f r pre res h1 hrest ih =>
      rw [List.cons_append]
      simp only [addFoldersLoop, h1.1, h1.2]
      rw [ih]
      simp [List.append_assoc]
  · intro fs st f rest b hres hdir
    simp [addFoldersLoop, hres, hdir]

/-- C6 (witness): the strict and non-strict behaviours at a concrete
folder list with one existing, one missing and one further folder. -/
theorem thm_C6_witness :
    (addFoldersLoop fs6 true { root := RootVal.path rootR, folders := [] } ([dirA] ++ dirBad :: [dirC]) =
      ({ root := RootVal.path rootR, folders := [] ++ [dirA] },
       Except.error (PyErr.valueError "Folder does not exist or is not a directory."))) ∧
    (addFoldersLoop fs6 false { root := RootVal.path rootR, folders := [] } (dirBad :: [dirC]) =
      addFoldersLoop fs6 false { root := RootVal.path rootR, folders := [] } [dirC]) := by
  constructor
  · exact thm_C6_add_folders_strict.1 fs6 (RootVal.path rootR) [] [dirA] [dirA] dirBad dirBad [dirC]
      (List.Forall₂.cons (by decide) List.Forall₂.nil) (by decide) (by decide)
  · exact thm_C6_add_folders_strict.2 fs6 { root := RootVal.path rootR, folders := [] } dirBad [dirC]
      dirBad (by decide) (by decide)

/-- C7: the effective regex map is rebuilt for each file: every raw key is
reduced modulo that file's segment count and, among raw keys that collide
after the reduction, the last one in map iteration order silently wins
(first conjunct characterizes the lookup; second conjunct shows processFile
using exactly effectiveMap of the file's own relative segment count). -/
theorem thm_C7_effective_map :
    (∀ (ri : List (Nat × RegexEntry)) (n j : Nat),
       dictGet (effectiveMap ri n) j =
         (ri.reverse.find? (fun p => decide (p.1 % n = j))).map Prod.snd) ∧
    (∀ (root : RootVal) (ri : List (Nat × RegexEntry)) (rm : Bool) (file rel : PyPath),
       file.relativeToRoot root = Except.ok rel →
       ¬(rel.segments.length = 0 ∧ ri.isEmpty = false) →
       processFile root ri rm file =
         Except.ok
           (if (processParts (effectiveMap ri rel.segments.length) rm (initRow file) rel.segments).2 then
              some (processParts (effectiveMap ri rel.segments.length) rm (initRow file) rel.segments).1
            else none)) := by
  constructor
  · exact effectiveMap_get
  · intro root ri rm file rel h hn
    simp only [processFile, h]
    rw [if_neg hn]

/-- C7 (witness): a depth-3 relative path with a regex map keyed at raw
index 3: the second conjunct applied to the concrete file, whose effective
map keys 3 mod 3 = 0, the filename position. -/
theorem thm_C7_witness :
    processFile (RootVal.path rootR) ri7 true fileD3 =
      Except.ok
        (if (processParts (effectiveMap ri7 relD3.segments.length) true (initRow fileD3) relD3.segments).2 then
           some (processParts (effectiveMap ri7 relD3.segments.length) true (initRow fileD3) relD3.segments).1
         else none) :=
  thm_C7_effective_map.2 (RootVal.path rootR) ri7 true fileD3 relD3 (by decide) (by decide)

/-- C8: a single-pattern position merges the named captures on success and
leaves the row unchanged on failure; on failure the keep flag is cleared
exactly when require_match is set (first conjunct); the row built by the
position loop never depends on the incoming keep flag, so a row already
marked for exclusion still gets all remaining extractions (second
conjunct); with require_match=false the loop never changes the keep flag,
so failed matches never cause exclusion (third conjunct). -/
theorem thm_C8_single_require_match :
    (∀ (mod : List (Nat × RegexEntry)) (rm : Bool) (row : Row) (keep : Bool) (i : Nat)
       (part : String) (reg : PyRegex),
       dictGet mod i = some (RegexEntry.single reg) →
       processPosition mod rm (row, keep) (i, part) =
         (match reg part with
          | some m => (dictUpdate row (groupdictRow m), keep)
          | none => if rm then (row, false) else (row, keep))) ∧
    (∀ (mod : List (Nat × RegexEntry)) (rm : Bool) (l : List (Nat × String)) (row : Row)
       (b1 b2 : Bool),
       (l.foldl (processPosition mod rm) (row, b1)).1 =
         (l.foldl (processPosition mod rm) (row, b2)).1) ∧
    (∀ (mod : List (Nat × RegexEntry)) (l : List (Nat × String)) (acc : Row × Bool),
       (l.foldl (processPosition mod false) acc).2 = acc.2) := by
  refine ⟨?_, ?_, ?_⟩
  · intro mod rm row keep i part reg h
    cases hm : reg part with
    | some m => simp [processPosition, h, hm]
    | none => cases rm <;> simp [processPosition, h, hm]
  · intro mod rm l row b1 b2
    exact foldl_processPosition_fst mod rm l row b1 b2
  · intro mod l acc
    exact foldl_processPosition_keep_false mod l acc

/-- C8 (witness): the first conjunct applied to a concrete failing
single-pattern position with require_match set. -/
theorem thm_C8_witness :
    processPosition mod8 true ([("filename", PyVal.str "f")], true) (0, "f") =
      (match regexFail "f" with
       | some m => (dictUpdate [("filename", PyVal.str "f")] (groupdictRow m), true)
       | none => if true then ([("filename", PyVal.str "f")], false)
                 else ([("filename", PyVal.str "f")], true)) :=
  thm_C8_single_require_match.1 mod8 true [("filename", PyVal.str "f")] true 0 "f" regexFail rfl

/-- C9: a root-configuration failure leaves the stored root (indeed the
whole state) unchanged: set_root raises before assigning, and add_folders
with a failing root argument propagates the error before touching any
folder. -/
theorem thm_C9_root_unchanged_on_failure :
    (∀ (fs : FileSystem) (st : DataFinder) (arg : RootArg) (e : PyErr),
       (set_root fs st arg).2 = Except.error e → (set_root fs st arg).1 = st) ∧
    (∀ (fs : FileSystem) (st : DataFinder) (folders : List PyPath) (arg : RootArg)
       (strict : Bool) (e : PyErr),
       (set_root fs st arg).2 = Except.error e →
       add_folders fs st folders (some arg) strict = (st, Except.error e)) := by
  constructor
  · intro fs st arg e h
    exact set_root_error_state fs st arg e h
  · intro fs st folders arg strict e h
    cases hsr : set_root fs st arg with
    | mk st1 out =>
      cases out with
      | ok u =>
        rw [hsr] at h
        simp at h
      | error e2 =>
        have h2 : e2 = e := by
          rw [hsr] at h
          simpa using h
        have h3 : st1 = st := by
          have hroot := set_root_error_state fs st arg e2 (by rw [hsr])
          rw [hsr] at hroot
          exact hroot
        simp only [add_folders, hsr]
        rw [h2, h3]

/-- C9 (witness): both conjuncts at a concrete failing single-path root. -/
theorem thm_C9_witness :
    (set_root fsE stE (RootArg.single otherR)).1 = stE ∧
    add_folders fsE stE [rootR] (some (RootArg.single otherR)) true =
      (stE, Except.error (PyErr.valueError "Root does not exist or is not a directory.")) :=
  ⟨thm_C9_root_unchanged_on_failure.1 fsE stE (RootArg.single otherR)
      (PyErr.valueError "Root does not exist or is not a directory.") (by decide),
   thm_C9_root_unchanged_on_failure.2 fsE stE [rootR] (RootArg.single otherR) true
      (PyErr.valueError "Root does not exist or is not a directory.") (by decide)⟩

/-- C10: query is read-only on the registry: the state component of the
call is the input state whatever the arguments and outcome (the method
body contains no assignment to self). -/
theorem thm_C10_query_frame (fs : FileSystem) (f : List Row → List Row) (st : DataFinder)
    (q : String) (ri : List (Nat × RegexEntry)) (rm v : Bool) :
    (query fs f st q ri rm v).1 = st := rfl
